import Mathlib

set_option maxRecDepth 10000

/-!
# Verification of the AItechspecReviewer segmentation and review pipeline

Shallow embedding of the Python sources of `AItechspecReviewer`:

* `app/components/tech_spec_display.py` — `break_content_by_template_sections`
  and `is_content_missing_or_copied`;
* `app/models/structured_doc.py` — `DocumentStructure.update_from_ai_response`;
* `app/components/doc_info_extractor.py` — the version extraction of
  `extract_document_info`;
* `app/services/bedrock_service.py` — the response handling of
  `BedrockService.review_document`.

Python strings are Lean `String`s, Python `None`-able values are `Option`s,
Python exceptions are `Except` results, and Python dicts are association
lists with Python's insert/overwrite semantics.
-/

namespace TechSpec

/-- Characters stripped by Python `str.strip()` with no argument
(the ASCII whitespace characters; the documents at hand are ASCII). -/
def pyWs (c : Char) : Bool :=
  c = ' ' || c = '\t' || c = '\n' || c = '\r' || c = '\x0b' || c = '\x0c'

/-- Python `str.strip()`: drop leading and trailing whitespace. -/
def pyStrip (s : String) : String :=
  String.mk (((s.toList.dropWhile pyWs).reverse.dropWhile pyWs).reverse)

/-- Python `str.lower()` (ASCII case folding, as in the headings at hand). -/
def pyLower (s : String) : String := String.mk (s.toList.map Char.toLower)

/-- Split a character list on a separator character, Python `str.split(sep)`
style: `n` separators produce `n + 1` pieces, empty pieces kept. -/
def splitChar (c : Char) : List Char → List (List Char)
  | [] => [[]]
  | a :: as =>
    match splitChar c as with
    | [] => [[]]
    | g :: gs => if a = c then [] :: g :: gs else (a :: g) :: gs

/-- Python `content.split('\n')`. -/
def pySplitNl (s : String) : List String :=
  (splitChar '\n' s.toList).map String.mk

/-- A content block of a parsed document: Python represents a paragraph as a
`str` and a table as a dict carrying `'type': 'table'` and a `'text'`
rendering (`''` when the key is missing); any other dict is `other`. -/
inductive Block where
  | para (s : String)
  | table (text : String)
  | other
deriving DecidableEq, Repr

/-- The `content` argument of the display/extractor functions:
either a raw string (PDF/TXT path) or a list of blocks (DOCX path). -/
inductive DocInput where
  | ofString (s : String)
  | ofList (bs : List Block)
deriving DecidableEq, Repr

/-- Flattening done at the top of `break_content_by_template_sections`:
a string input is split on `'\n'`, a list input is used as is. -/
def blocksOf : DocInput → List Block
  | .ofString s => (pySplitNl s).map Block.para
  | .ofList bs => bs

/-- `heading_texts = [h[1].strip() for h in template_headings]`. -/
def headingTexts (template_headings : List (String × String)) : List String :=
  template_headings.map (fun h => pyStrip h.2)

/-- A Python dict from header text to block list, as an association list in
insertion order with unique keys. -/
abbrev SectionMap := List (String × List Block)

/-- Python `m[k] = v`: overwrite in place when the key exists, append
otherwise. -/
def dictSet (m : SectionMap) (k : String) (v : List Block) : SectionMap :=
  match m with
  | [] => [(k, v)]
  | (k₀, v₀) :: rest => if k₀ = k then (k, v) :: rest else (k₀, v₀) :: dictSet rest k v

/-- Python `m.get(k)`. -/
def dictLookup (m : SectionMap) (k : String) : Option (List Block) :=
  match m with
  | [] => none
  | (k₀, v) :: rest => if k₀ = k then some v else dictLookup rest k

/-- `section_map = {h: [] for h in heading_texts}`. -/
def dictInit (ks : List String) : SectionMap :=
  ks.foldl (fun m h => dictSet m h []) []

/-- The keys of the dict, in insertion order. -/
def dictKeys (m : SectionMap) : List String := m.map Prod.fst

/-- `block.strip().lower() == h.lower()` — only `str` blocks are eligible. -/
def isHeadingMatch (b : Block) (h : String) : Bool :=
  match b with
  | .para s => pyLower (pyStrip s) == pyLower h
  | _ => false

/-- The `indices` list before sorting: for each block index, each heading text
(in schema order) matched by that block. -/
def rawIndices (blocks : List Block) (hts : List String) : List (Nat × String) :=
  blocks.enum.flatMap fun p =>
    (hts.filter (fun h => isHeadingMatch p.2 h)).map (fun h => (p.1, h))

/-- Strict lexicographic order on characters lists (Python `str` comparison
by code point). -/
def strLtCh : List Char → List Char → Bool
  | [], [] => false
  | [], _ :: _ => true
  | _ :: _, [] => false
  | a :: as, b :: bs => if a < b then true else if a = b then strLtCh as bs else false

/-- Python's ascending order on `(int, str)` tuples (`≤`). -/
def pairLe (a b : Nat × String) : Bool :=
  if a.1 < b.1 then true
  else if b.1 < a.1 then false
  else a.2 == b.2 || strLtCh a.2.toList b.2.toList

/-- Insert into an already sorted list (Python `list.sort()`). -/
def insertPair (x : Nat × String) : List (Nat × String) → List (Nat × String)
  | [] => [x]
  | y :: ys => if pairLe x y then x :: y :: ys else y :: insertPair x ys

/-- `indices.sort()`. -/
def sortPairs (l : List (Nat × String)) : List (Nat × String) :=
  l.foldr insertPair []

/-- The filter applied to a section's slice:
`(isinstance(b, str) and b.strip()) or (isinstance(b, dict) and b.get('type') == 'table')`. -/
def keepBlock (b : Block) : Bool :=
  match b with
  | .para s => pyStrip s != ""
  | .table _ => true
  | .other => false

/-- `[b for b in blocks[start_idx+1:end_idx] if ...]`. -/
def sectionSlice (blocks : List Block) (s e : Nat) : List Block :=
  ((blocks.drop (s + 1)).take (e - (s + 1))).filter keepBlock

/-- The assignment loop of `break_content_by_template_sections`: each boundary
writes the blocks strictly between it and the next boundary (or the end of the
document) under its heading. -/
def assignSections (blocks : List Block) (m : SectionMap) :
    List (Nat × String) → SectionMap
  | [] => m
  | (s, h) :: rest =>
    let e := match rest with
      | (s₂, _) :: _ => s₂
      | [] => blocks.length
    assignSections blocks (dictSet m h (sectionSlice blocks s e)) rest

/-- Python `set.add` modelled on a duplicate-free list. -/
def setInsert (s : List String) (x : String) : List String :=
  if x ∈ s then s else s ++ [x]

/-- `found_sections`: the headings of the boundaries, deduplicated. -/
def foundSections (idxs : List (Nat × String)) : List String :=
  idxs.foldl (fun acc p => setInsert acc p.2) []

/-- `break_content_by_template_sections(content, template_headings)`
from `app/components/tech_spec_display.py`. -/
def break_content_by_template_sections (content : DocInput)
    (template_headings : List (String × String)) : SectionMap × List String :=
  let hts := headingTexts template_headings
  let blocks := blocksOf content
  let idxs := sortPairs (rawIndices blocks hts)
  (assignSections blocks (dictInit hts) idxs, foundSections idxs)

example :
    break_content_by_template_sections
      (.ofString "Intro\nhello\nScope\nworld\n\nIntro\nbye")
      [("Heading 1", "Intro"), ("Heading 1", "Scope")] =
    ([("Intro", [Block.para "bye"]), ("Scope", [Block.para "world"])],
     ["Intro", "Scope"]) := by decide

/-! ## Boilerplate detector (`is_content_missing_or_copied`) -/

/-- The filter of the `doc_text` comprehension:
`(isinstance(b, str) and b.strip()) or (isinstance(b, dict) and
b.get('type') == 'table' and isinstance(b.get('text', ''), str) and
b.get('text', '').strip())`. -/
def docPieceKeep (b : Block) : Bool :=
  match b with
  | .para s => pyStrip s != ""
  | .table t => pyStrip t != ""
  | .other => false

/-- The element expression of the `doc_text` comprehension: a paragraph
contributes `b.strip().lower()`, a table `b.get('text', '').strip().lower()`. -/
def docPieceText (b : Block) : String :=
  match b with
  | .para s => pyLower (pyStrip s)
  | .table t => pyLower (pyStrip t)
  | .other => ""

/-- Python `' '.join(pieces)`. -/
def joinSp : List String → String
  | [] => ""
  | [x] => x
  | x :: y :: xs => x ++ " " ++ joinSp (y :: xs)

/-- `doc_text`: the document side of the comparison, flattened. -/
def flattenDocText (section_content : List Block) : String :=
  joinSp ((section_content.filter docPieceKeep).map docPieceText)

/-- `template_text`: the template side of the comparison, flattened. -/
def flattenTemplateText (template_content : List String) : String :=
  joinSp ((template_content.filter (fun l => pyStrip l != "")).map
    (fun l => pyLower (pyStrip l)))

/-- Python `needle in hay` on strings: contiguous substring test. -/
def isSubstr (needle : List Char) : List Char → Bool
  | [] => needle.isEmpty
  | a :: t => needle.isPrefixOf (a :: t) || isSubstr needle t

/-- `is_content_missing_or_copied(section_content, template_content)`
from `app/components/tech_spec_display.py`. -/
def is_content_missing_or_copied (section_content : List Block)
    (template_content : List String) : Bool :=
  if section_content.isEmpty then true
  else
    let doc_text := flattenDocText section_content
    let template_text := flattenTemplateText template_content
    if template_text != "" && doc_text != "" &&
        (doc_text == template_text ||
          (20 < doc_text.length && isSubstr doc_text.toList template_text.toList)) then
      true
    else false

example : is_content_missing_or_copied [] ["x"] = true := by decide
example : is_content_missing_or_copied [Block.para " Foo "] ["foo"] = true := by decide
example :
    is_content_missing_or_copied [Block.para "an original piece of content"]
      ["boilerplate from the template only"] = false := by decide
example :
    is_content_missing_or_copied [Block.para "a template fragment kept intact"]
      ["prelude", "A template fragment kept intact and more"] = true := by decide

/-! ## Review response mapper (`DocumentStructure.update_from_ai_response`) -/

/-- One entry of `ai_response["sections"]`. A field is `none` when the key is
missing from the entry's dict (Python `.get` then yields `None`; `s["header"]`
raises `KeyError`). -/
structure SectionFeedback where
  header : Option String
  score : Option Int
  comment : Option String
  suggestions : Option String
deriving DecidableEq, Repr

/-- The `ai_response` dict: the three keys read by
`update_from_ai_response`, each `none` when missing (Python `.get`). -/
structure AIResponse where
  overall_score : Option Int
  overall_comment : Option String
  sections : List SectionFeedback
deriving DecidableEq, Repr

/-- `SectionContent` from `app/models/structured_doc.py`. -/
structure SectionContent where
  header : String
  content_blocks : List Block
  ai_score : Option Int := none
  ai_comment : Option String := none
  ai_suggestions : Option String := none
deriving DecidableEq, Repr

/-- `DocumentStructure` from `app/models/structured_doc.py`. -/
structure DocumentStructure where
  sections : List SectionContent
  overall_score : Option Int := none
  overall_comment : Option String := none
deriving DecidableEq, Repr

/-- `section_feedback = {s["header"]: s for s in ai_response.get("sections", [])}`
followed by `section_feedback.get(h)`: a dict keyed by header text keeps the
last entry for a duplicated header, so the lookup finds the last entry whose
`header` is `h`. -/
def feedbackLookup (es : List SectionFeedback) (h : String) : Option SectionFeedback :=
  es.reverse.find? (fun e => e.header == some h)

/-- The body of the `for section in self.sections` loop: when the lookup
yields an entry (a non-empty dict, hence truthy), overwrite the three AI
fields with the entry's `.get` values; otherwise leave the section as is. -/
def updateSection (es : List SectionFeedback) (s : SectionContent) : SectionContent :=
  match feedbackLookup es s.header with
  | some f =>
    { s with ai_score := f.score, ai_comment := f.comment, ai_suggestions := f.suggestions }
  | none => s

deriving instance DecidableEq for Except

/-- `DocumentStructure.update_from_ai_response(ai_response)`: builds the
header-keyed feedback dict and rewrites the structure. The dict comprehension
evaluates `s["header"]` on every entry, so an entry without a `'header'` key
raises `KeyError`, modelled as `Except.error`. (In the Python original the
`overall_score`/`overall_comment` assignments precede the comprehension, so
they have already happened when the exception propagates; the exception case
of this pure model returns only the error.) -/
def update_from_ai_response (d : DocumentStructure) (r : AIResponse) :
    Except String DocumentStructure :=
  if r.sections.all (fun e => e.header.isSome) then
    .ok { sections := d.sections.map (updateSection r.sections),
          overall_score := r.overall_score,
          overall_comment := r.overall_comment }
  else .error "KeyError: 'header'"

example :
    update_from_ai_response
      ⟨[⟨"Intro", [], some 1, some "old", some "old"⟩], some 9, some "prev"⟩
      ⟨none, none, [⟨some "Intro", some 4, some "good", some "none"⟩,
                    ⟨some "Other", some 2, none, none⟩]⟩ =
    .ok ⟨[⟨"Intro", [], some 4, some "good", some "none"⟩], none, none⟩ := by decide

example :
    update_from_ai_response ⟨[], none, none⟩ ⟨none, none, [⟨none, none, none, none⟩]⟩ =
    .error "KeyError: 'header'" := by decide

/-! ## Version extraction (`extract_document_info` in
`app/components/doc_info_extractor.py`)

The version pattern is `(?i)version\s*:?-?\s*(\d+\.\d+(\.\d+)?)`, applied
with `re.search` to every line; each match overwrites `info['version']`
with its first capture group, so the last matching line wins. The pattern
is deterministic (no backtracking changes the outcome: whitespace, `:`,
`-` and digits are pairwise disjoint character classes), so it is embedded
as a direct left-to-right matcher. -/

/-- Consume a literal pattern case-insensitively; return the remainder. -/
def stripCI : List Char → List Char → Option (List Char)
  | [], rest => some rest
  | _ :: _, [] => none
  | p :: ps, c :: cs => if Char.toLower c = Char.toLower p then stripCI ps cs else none

/-- Attempt the version pattern anchored at the start of `cs`; on success
return the first capture group `\d+\.\d+(\.\d+)?`. -/
def versionAt (cs : List Char) : Option (List Char) :=
  match stripCI "version".toList cs with
  | none => none
  | some r₀ =>
    let r₁ := r₀.dropWhile pyWs
    let r₂ := match r₁ with | ':' :: t => t | _ => r₁
    let r₃ := match r₂ with | '-' :: t => t | _ => r₂
    let r₄ := r₃.dropWhile pyWs
    let d₁ := r₄.takeWhile Char.isDigit
    let r₅ := r₄.dropWhile Char.isDigit
    if d₁.isEmpty then none
    else
      match r₅ with
      | '.' :: r₆ =>
        let d₂ := r₆.takeWhile Char.isDigit
        let r₇ := r₆.dropWhile Char.isDigit
        if d₂.isEmpty then none
        else
          match r₇ with
          | '.' :: r₈ =>
            let d₃ := r₈.takeWhile Char.isDigit
            if d₃.isEmpty then some (d₁ ++ '.' :: d₂)
            else some (d₁ ++ '.' :: d₂ ++ '.' :: d₃)
          | _ => some (d₁ ++ '.' :: d₂)
      | _ => none

/-- `re.search(version_pattern, line)`: try the pattern at each position,
left to right, and return the first match's capture group. -/
def reSearchVersion : List Char → Option (List Char)
  | [] => none
  | c :: t =>
    match versionAt (c :: t) with
    | some g => some g
    | none => reSearchVersion t

/-- The line preprocessing at the top of `extract_document_info`:
`[p.strip() for p in text if isinstance(p, str) and p.strip()]` for a list,
`[l.strip() for l in text.split('\n') if l.strip()]` for a string. -/
def infoLines : DocInput → List String
  | .ofList bs =>
    bs.filterMap fun b =>
      match b with
      | .para s => if pyStrip s != "" then some (pyStrip s) else none
      | _ => none
  | .ofString s =>
    (pySplitNl s).filterMap fun l =>
      if pyStrip l != "" then some (pyStrip l) else none

/-- The `'version'` field of `extract_document_info(text)`. The version
branch of the per-line loop neither reads nor writes any other field of
`info`, so projecting the dict to this field is faithful: starting from
`''`, every line whose `re.search` matches overwrites the field with the
match's group 1. -/
def extract_document_info_version (text : DocInput) : String :=
  (infoLines text).foldl
    (fun acc line =>
      match reSearchVersion line.toList with
      | some g => String.mk g
      | none => acc) ""

example : extract_document_info_version (.ofString "Version: 2.3.1") = "2.3.1" := by decide
example : extract_document_info_version (.ofString "Version= 2.3.1") = "" := by decide
example :
    extract_document_info_version (.ofString "version 1.0\ntext\nVERSION:- 4.5.6.7") =
      "4.5.6" := by decide
example : extract_document_info_version (.ofList [Block.para " version-2.10 "]) = "2.10" := by
  decide
example : extract_document_info_version (.ofString "version 1..2") = "" := by decide

/-! ## Response handling in `BedrockService.review_document`
(`app/services/bedrock_service.py`)

The transport (boto3 `invoke_model`, reading the body, indexing
`content[0]['text']`) is a collaborator: its outcome is a parameter, either
the content text or the text of the raised exception. The JSON handling
(`json.loads`, the `re.search(r'\{.*\}', ..., re.DOTALL)` recovery and the
two sentinel fallbacks) is embedded below. -/

/-- A parsed JSON value (a Python object from `json.loads`). Object fields
are kept in parse order, possibly with duplicate keys; `JVal.getField`
returns the last binding, matching the overwrite semantics of a Python
dict. Numbers are modelled as integers — the fractional and exponent forms
accepted by `json.loads` do not occur in the values the claims inspect. -/
inductive JVal where
  | null
  | bool (b : Bool)
  | num (n : Int)
  | str (s : String)
  | arr (xs : List JVal)
  | obj (fields : List (String × JVal))
deriving Repr

/-- Python dict access on a parsed object: last binding of the key wins. -/
def JVal.getField (v : JVal) (k : String) : Option JVal :=
  match v with
  | .obj fs => (fs.reverse.find? (fun p => p.1 == k)).map Prod.snd
  | _ => none

/-- JSON insignificant whitespace. -/
def jWs (c : Char) : Bool := c = ' ' || c = '\t' || c = '\n' || c = '\r'

/-- Drop leading JSON whitespace. -/
def skipWs (cs : List Char) : List Char := cs.dropWhile jWs

/-- Hex digit value. -/
def hexVal (c : Char) : Option Nat :=
  if '0' ≤ c ∧ c ≤ '9' then some (c.toNat - '0'.toNat)
  else if 'a' ≤ c ∧ c ≤ 'f' then some (c.toNat - 'a'.toNat + 10)
  else if 'A' ≤ c ∧ c ≤ 'F' then some (c.toNat - 'A'.toNat + 10)
  else none

/-- Body of a JSON string literal, after the opening quote: returns the
decoded characters and the remainder after the closing quote. -/
def parseStrBody (acc : List Char) : List Char → Option (List Char × List Char)
  | [] => none
  | '"' :: rest => some (acc.reverse, rest)
  | '\\' :: rest =>
    match rest with
    | '"' :: t => parseStrBody ('"' :: acc) t
    | '\\' :: t => parseStrBody ('\\' :: acc) t
    | '/' :: t => parseStrBody ('/' :: acc) t
    | 'b' :: t => parseStrBody ('\x08' :: acc) t
    | 'f' :: t => parseStrBody ('\x0c' :: acc) t
    | 'n' :: t => parseStrBody ('\n' :: acc) t
    | 'r' :: t => parseStrBody ('\r' :: acc) t
    | 't' :: t => parseStrBody ('\t' :: acc) t
    | 'u' :: a :: b :: c :: d :: t =>
      match hexVal a, hexVal b, hexVal c, hexVal d with
      | some x, some y, some z, some w =>
        parseStrBody (Char.ofNat (((x * 16 + y) * 16 + z) * 16 + w) :: acc) t
      | _, _, _, _ => none
    | _ => none
  | c :: rest => parseStrBody (c :: acc) rest

/-- Digits to a natural number. -/
def digitsToNat (ds : List Char) : Nat :=
  ds.foldl (fun a c => a * 10 + (c.toNat - '0'.toNat)) 0

/-- A JSON number restricted to the integer grammar (see `JVal`): optional
minus sign then digits, rejecting a following `.`/`e`/`E`. -/
def parseNum (cs : List Char) : Option (Int × List Char) :=
  let p := match cs with
    | '-' :: t => (true, t)
    | _ => (false, cs)
  let ds := p.2.takeWhile Char.isDigit
  let rest := p.2.dropWhile Char.isDigit
  if ds.isEmpty then none
  else
    match rest with
    | '.' :: _ => none
    | 'e' :: _ => none
    | 'E' :: _ => none
    | _ =>
      let n : Int := Int.ofNat (digitsToNat ds)
      some ((if p.1 then -n else n), rest)

mutual

/-- Parse one JSON value from the front of the input (fuel-indexed; the fuel
is at least the input length wherever the parser is used). -/
def parseVal : Nat → List Char → Option (JVal × List Char)
  | 0, _ => none
  | fuel + 1, cs₀ =>
    match skipWs cs₀ with
    | '{' :: rest =>
      (match skipWs rest with
       | '}' :: t => some (.obj [], t)
       | r₁ => parseMembers fuel r₁ [])
    | '[' :: rest =>
      (match skipWs rest with
       | ']' :: t => some (.arr [], t)
       | r₁ => parseItems fuel r₁ [])
    | '"' :: rest =>
      (parseStrBody [] rest).map (fun p => (.str (String.mk p.1), p.2))
    | 't' :: 'r' :: 'u' :: 'e' :: t => some (.bool true, t)
    | 'f' :: 'a' :: 'l' :: 's' :: 'e' :: t => some (.bool false, t)
    | 'n' :: 'u' :: 'l' :: 'l' :: t => some (.null, t)
    | cs => (parseNum cs).map (fun p => (.num p.1, p.2))

/-- Parse the members of an object after at least one member is known to
follow. -/
def parseMembers : Nat → List Char → List (String × JVal) → Option (JVal × List Char)
  | 0, _, _ => none
  | fuel + 1, cs, acc =>
    match skipWs cs with
    | '"' :: rest =>
      (match parseStrBody [] rest with
       | none => none
       | some (k, r₁) =>
         match skipWs r₁ with
         | ':' :: r₂ =>
           (match parseVal fuel r₂ with
            | none => none
            | some (v, r₃) =>
              match skipWs r₃ with
              | ',' :: r₄ => parseMembers fuel r₄ (acc ++ [(String.mk k, v)])
              | '}' :: r₄ => some (.obj (acc ++ [(String.mk k, v)]), r₄)
              | _ => none)
         | _ => none)
    | _ => none

/-- Parse the items of an array after at least one item is known to follow. -/
def parseItems : Nat → List Char → List JVal → Option (JVal × List Char)
  | 0, _, _ => none
  | fuel + 1, cs, acc =>
    match parseVal fuel cs with
    | none => none
    | some (v, r₁) =>
      match skipWs r₁ with
      | ',' :: r₂ => parseItems fuel r₂ (acc ++ [v])
      | ']' :: r₂ => some (.arr (acc ++ [v]), r₂)
      | _ => none

end

/-- Python `json.loads`: one JSON value spanning the whole input up to
trailing whitespace. -/
def jsonParse (s : String) : Option JVal :=
  match parseVal (s.length + 1) s.toList with
  | some (v, rest) => if (skipWs rest).isEmpty then some v else none
  | none => none

example : jsonParse "\x7b\"overall_score\":7,\"sections\":[]\x7d" =
    some (.obj [("overall_score", .num 7), ("sections", .arr [])]) := rfl
example : jsonParse "Here is the result: \x7b\"overall_score\":7\x7d" = none := rfl
example : jsonParse " [1, null, \"a\", true, -2] " =
    some (.arr [.num 1, .null, .str "a", .bool true, .num (-2)]) := rfl

/-- The prefix of the input up to and including its last `'}'`
(`none` when it has no `'}'`). -/
def takeToLastClose : List Char → Option (List Char)
  | [] => none
  | c :: t =>
    match takeToLastClose t with
    | some r => some (c :: r)
    | none => if c = '}' then some [c] else none

/-- One attempt of the pattern `\{.*\}` (with `re.DOTALL`) anchored at the
current position: the position must hold `'{'`; the greedy `.*` then reaches
to the last `'}'` of the remainder. -/
def braceMatchAt : List Char → Option (List Char)
  | '{' :: rest => (takeToLastClose rest).map (fun r => '{' :: r)
  | _ => none

/-- `re.search(r'\{.*\}', content, re.DOTALL)`: try each position left to
right and return the first position's match. -/
def reSearchBrace : List Char → Option (List Char)
  | [] => none
  | c :: t =>
    match braceMatchAt (c :: t) with
    | some m => some m
    | none => reSearchBrace t

example : reSearchBrace "x \x7b\"a\":1\x7d y \x7b\"b\":2\x7d".toList =
    some "\x7b\"a\":1\x7d y \x7b\"b\":2\x7d".toList := by decide
example : reSearchBrace "\x7d\x7b".toList = none := by decide
example : reSearchBrace "\x7bx\x7d\x7b".toList = some "\x7bx\x7d".toList := by decide

/-- The sentinel dict `{'overall_score': None, 'overall_comment': c,
'sections': []}` built by `review_document` on its fallback paths. -/
def sentinelResult (comment : String) : JVal :=
  .obj [("overall_score", .null), ("overall_comment", .str comment), ("sections", .arr [])]

/-- The message of the `JSONDecodeError` that `json.loads` raises on invalid
input. Its text is produced inside the Python `json` library; no claim
inspects it, so it is modelled by a fixed placeholder. -/
def jsonLoadsErrorText : String := "Expecting value"

/-- The outcome of the Bedrock transport inside the outer `try`:
`.ok content` is `response_body['content'][0]['text']` after a successful
`invoke_model` call, `.error e` is `str(e)` of the exception the call (or
the reading of its response) raised. -/
abbrev Transport := Except String String

/-- The second component (the `ai_response` value) of the pair returned by
`BedrockService.review_document(prompt)`, as a function of the prompt and
the transport outcome. Control flow of the source: empty prompt returns the
empty sentinel early; a transport exception is caught by the outer
`except`, yielding the error sentinel; otherwise `json.loads(content)` is
tried, on failure the `\{.*\}` span is searched and parsed — an exception
of that inner `json.loads` escapes the inner handler and is caught by the
outer `except`, and a missing span yields the sentinel carrying the raw
content. -/
def review_document_response (prompt : String) (transport : Transport) : JVal :=
  if prompt = "" then sentinelResult ""
  else
    match transport with
    | .error e => sentinelResult ("Error during review: " ++ e)
    | .ok content =>
      match jsonParse content with
      | some v => v
      | none =>
        match reSearchBrace content.toList with
        | some span =>
          match jsonParse (String.mk span) with
          | some v => v
          | none => sentinelResult ("Error during review: " ++ jsonLoadsErrorText)
        | none => sentinelResult content

example :
    (review_document_response "p"
        (.ok "Here is the result: \x7b\"overall_score\":7,\"sections\":[]\x7d")).getField
      "overall_score" = some (.num 7) := rfl

example :
    review_document_response "p" (.ok "x \x7b\"a\":1\x7d y \x7b\"b\":2\x7d") =
      sentinelResult ("Error during review: " ++ jsonLoadsErrorText) := rfl

/-! ## Helper lemmas about the dict and sort embeddings -/

theorem mem_dictKeys_dictSet (m : SectionMap) (k x : String) (v : List Block) :
    x ∈ dictKeys (dictSet m k v) ↔ x ∈ dictKeys m ∨ x = k := by
  induction m with
  | nil => simp [dictSet, dictKeys]
  | cons hd tl ih =>
    obtain ⟨k₀, v₀⟩ := hd
    by_cases h : k₀ = k
    · subst h
      simp [dictSet, dictKeys]
      tauto
    · simp [dictSet, dictKeys, h] at ih ⊢
      rw [ih]
      tauto

theorem mem_dictKeys_dictInit_aux (ks : List String) (m : SectionMap) (x : String) :
    x ∈ dictKeys (ks.foldl (fun m h => dictSet m h []) m) ↔ x ∈ dictKeys m ∨ x ∈ ks := by
  induction ks generalizing m with
  | nil => simp
  | cons k ks ih =>
    simp only [List.foldl_cons, List.mem_cons]
    rw [ih, mem_dictKeys_dictSet]
    tauto

theorem mem_dictKeys_dictInit (ks : List String) (x : String) :
    x ∈ dictKeys (dictInit ks) ↔ x ∈ ks := by
  rw [dictInit, mem_dictKeys_dictInit_aux]
  simp [dictKeys]

theorem mem_dictKeys_assignSections (blocks : List Block) (idxs : List (Nat × String))
    (m : SectionMap) (x : String) :
    x ∈ dictKeys (assignSections blocks m idxs) ↔
      x ∈ dictKeys m ∨ x ∈ idxs.map Prod.snd := by
  induction idxs generalizing m with
  | nil => simp [assignSections]
  | cons hd tl ih =>
    obtain ⟨s, h⟩ := hd
    simp only [assignSections, List.map_cons, List.mem_cons]
    rw [ih, mem_dictKeys_dictSet]
    tauto

theorem mem_insertPair (x y : Nat × String) (l : List (Nat × String)) :
    x ∈ insertPair y l ↔ x = y ∨ x ∈ l := by
  induction l with
  | nil => simp [insertPair]
  | cons hd tl ih =>
    simp only [insertPair]
    by_cases h : pairLe y hd = true
    · simp [h]
    · simp [h, ih]
      tauto

theorem mem_sortPairs (x : Nat × String) (l : List (Nat × String)) :
    x ∈ sortPairs l ↔ x ∈ l := by
  induction l with
  | nil => simp [sortPairs]
  | cons hd tl ih =>
    simp only [sortPairs, List.foldr_cons, List.mem_cons] at ih ⊢
    rw [mem_insertPair, ih]

theorem rawIndices_snd_mem (blocks : List Block) (hts : List String) (p : Nat × String)
    (hp : p ∈ rawIndices blocks hts) : p.2 ∈ hts := by
  simp only [rawIndices, List.mem_flatMap, List.mem_map, List.mem_filter] at hp
  obtain ⟨a, -, h, ⟨hh, -⟩, rfl⟩ := hp
  exact hh

/-- C1: for every document (string or block-list) and template schema, the
mapping returned by `break_content_by_template_sections` has key set exactly
the trimmed header texts of the schema — every schema header is a key, found
or not, and no other key is present. -/
theorem segment_key_set_eq_schema_headers (content : DocInput)
    (template_headings : List (String × String)) (k : String) :
    k ∈ dictKeys (break_content_by_template_sections content template_headings).1 ↔
      k ∈ headingTexts template_headings := by
  unfold break_content_by_template_sections
  rw [mem_dictKeys_assignSections, mem_dictKeys_dictInit]
  constructor
  · rintro (h | h)
    · exact h
    · obtain ⟨p, hp, rfl⟩ := List.mem_map.mp h
      exact rawIndices_snd_mem _ _ _ ((mem_sortPairs _ _).mp hp)
  · exact fun h => Or.inl h

/-! ## C2: duplicated headers, last boundary wins -/

/-- Each boundary of the sorted `indices` list paired with its exclusive end
index, exactly as the assignment loop computes it: the next boundary's start,
or the block count for the final boundary. -/
def withEnds (len : Nat) : List (Nat × String) → List ((Nat × String) × Nat)
  | [] => []
  | (s, h) :: rest =>
    let e := match rest with
      | (s₂, _) :: _ => s₂
      | [] => len
    ((s, h), e) :: withEnds len rest

theorem dictLookup_dictSet_self (m : SectionMap) (k : String) (v : List Block) :
    dictLookup (dictSet m k v) k = some v := by
  induction m with
  | nil => simp [dictSet, dictLookup]
  | cons hd tl ih =>
    obtain ⟨k₀, v₀⟩ := hd
    by_cases h : k₀ = k
    · subst h; simp [dictSet, dictLookup]
    · simp [dictSet, dictLookup, h, ih]

theorem dictLookup_dictSet_ne (m : SectionMap) (k x : String) (v : List Block)
    (h : k ≠ x) : dictLookup (dictSet m k v) x = dictLookup m x := by
  induction m with
  | nil => simp [dictSet, dictLookup, h]
  | cons hd tl ih =>
    obtain ⟨k₀, v₀⟩ := hd
    by_cases h₀ : k₀ = k
    · subst h₀; simp [dictSet, dictLookup, h]
    · simp [dictSet, dictLookup, h₀, ih]

theorem dictLookup_assignSections (blocks : List Block) (idxs : List (Nat × String))
    (m : SectionMap) (h : String) :
    dictLookup (assignSections blocks m idxs) h =
      match (withEnds blocks.length idxs).reverse.find? (fun t => t.1.2 == h) with
      | some t => some (sectionSlice blocks t.1.1 t.2)
      | none => dictLookup m h := by
  induction idxs generalizing m with
  | nil => simp [assignSections, withEnds]
  | cons hd tl ih =>
    obtain ⟨s, hh⟩ := hd
    simp only [assignSections, withEnds, List.reverse_cons, List.find?_append]
    rw [ih]
    cases hfind : (withEnds blocks.length tl).reverse.find? (fun t => t.1.2 == h) with
    | some t => simp
    | none =>
      simp only [Option.none_or]
      by_cases heq : hh = h
      · subst heq
        simp [List.find?, dictLookup_dictSet_self]
      · have : (hh == h) = false := by simp [heq]
        simp [List.find?, this, dictLookup_dictSet_ne _ _ _ _ heq]

/-- C2: when a header has one or more boundaries, the mapping built by
`break_content_by_template_sections` assigns to that header the content slice
of the **last** boundary in document order (the boundaries are sorted by
block index): a later boundary's content overwrites an earlier one's. -/
theorem segment_last_boundary_wins (content : DocInput)
    (template_headings : List (String × String)) (h : String) (s e : Nat)
    (hlast :
      (withEnds (blocksOf content).length
          (sortPairs (rawIndices (blocksOf content) (headingTexts template_headings)))).reverse.find?
        (fun t => t.1.2 == h) = some ((s, h), e)) :
    dictLookup (break_content_by_template_sections content template_headings).1 h =
      some (sectionSlice (blocksOf content) s e) := by
  unfold break_content_by_template_sections
  rw [dictLookup_assignSections, hlast]

/-- Witness for C2 on a concrete document: the heading `A` occurs at block
indices 0 and 2; the mapping holds the slice after the second occurrence
(`[para "y"]`, blocks 3 and 4 filtered of blanks), not the earlier `x`. -/
theorem segment_last_boundary_wins_witness :
    dictLookup
        (break_content_by_template_sections (.ofString "A\nx\nA\ny\n")
          [("Heading 1", "A")]).1 "A" =
      some (sectionSlice (blocksOf (.ofString "A\nx\nA\ny\n")) 2 5) :=
  segment_last_boundary_wins (.ofString "A\nx\nA\ny\n") [("Heading 1", "A")] "A" 2 5
    (by decide)

example :
    sectionSlice (blocksOf (.ofString "A\nx\nA\ny\n")) 2 5 = [Block.para "y"] := by decide

/-! ## C3: the boilerplate decision -/

/-- C3: `is_content_missing_or_copied` returns `true` exactly when the
section block list is empty, or both flattened texts (lowercase, trimmed,
space-joined; a table contributes its rendered text only when non-blank) are
non-empty and either equal or the document text is longer than 20 characters
and a literal substring of the template text. In every other case —
in particular for section content longer than 20 characters that does not
occur in the template text — it returns `false`. -/
theorem missing_or_copied_iff (section_content : List Block)
    (template_content : List String) :
    is_content_missing_or_copied section_content template_content = true ↔
      section_content = [] ∨
        (flattenDocText section_content ≠ "" ∧
          flattenTemplateText template_content ≠ "" ∧
          (flattenDocText section_content = flattenTemplateText template_content ∨
            (20 < (flattenDocText section_content).length ∧
              isSubstr (flattenDocText section_content).toList
                (flattenTemplateText template_content).toList = true))) := by
  have hite : ∀ c : Bool, (if c = true then true else false) = c := by
    intro c; cases c <;> simp
  rcases section_content with _ | ⟨b, bs⟩
  · simp [is_content_missing_or_copied]
  · unfold is_content_missing_or_copied
    simp only [List.isEmpty_cons, Bool.false_eq_true, if_false, reduceCtorEq, false_or]
    rw [hite]
    simp only [Bool.and_eq_true, Bool.or_eq_true, bne_iff_ne, ne_eq, beq_iff_eq,
      decide_eq_true_eq]
    tauto

/-! ## C4: a response entry without a `'header'` key raises -/

/-- Counterexample to C4 as stated: a response whose single section entry
lacks the `'header'` key makes `update_from_ai_response` raise `KeyError`
(the dict comprehension evaluates `s["header"]`), rather than defaulting —
the call does not return normally. -/
theorem update_raises_on_missing_header :
    update_from_ai_response ⟨[], none, none⟩
        ⟨none, none, [⟨none, none, none, none⟩]⟩ =
      .error "KeyError: 'header'" := by decide

/-- C4 amended: `update_from_ai_response` never raises provided every
section entry carries a `'header'` key; missing `'score'`, `'comment'` or
`'suggestions'` keys are read with `.get` and default to `None` without
raising. -/
theorem update_total_when_headers_present (d : DocumentStructure) (r : AIResponse)
    (hh : ∀ e ∈ r.sections, e.header.isSome) :
    ∃ d₂, update_from_ai_response d r = .ok d₂ := by
  unfold update_from_ai_response
  rw [if_pos (by rw [List.all_eq_true]; exact fun e he => hh e he)]
  exact ⟨_, rfl⟩

/-- Witness for the amended C4: entries with a header but no score, comment
or suggestions are accepted. -/
theorem update_total_when_headers_present_witness :
    ∃ d₂,
      update_from_ai_response ⟨[⟨"Intro", [], some 3, none, none⟩], some 1, none⟩
          ⟨none, none, [⟨some "Intro", none, none, none⟩]⟩ = .ok d₂ :=
  update_total_when_headers_present
    ⟨[⟨"Intro", [], some 3, none, none⟩], some 1, none⟩
    ⟨none, none, [⟨some "Intro", none, none, none⟩]⟩ (by decide)

/-! ## C5: well-formed responses are applied, matched by header, last entry
wins, unmatched sections untouched -/

theorem find?_eq_head?_filter {α : Type} (p : α → Bool) (l : List α) :
    l.find? p = (l.filter p).head? := by
  induction l with
  | nil => simp
  | cons a l ih =>
    by_cases h : p a
    · simp [List.find?_cons, h, List.filter_cons]
    · simp only [List.find?_cons, List.filter_cons, h]
      simp only [Bool.false_eq_true, if_false]
      exact ih

theorem reverse_find?_eq_filter_getLast? {α : Type} (p : α → Bool) (l : List α) :
    l.reverse.find? p = (l.filter p).getLast? := by
  rw [find?_eq_head?_filter, List.filter_reverse, List.head?_reverse]

theorem feedbackLookup_eq_filter_getLast? (es : List SectionFeedback) (h : String) :
    feedbackLookup es h = (es.filter (fun e => e.header == some h)).getLast? := by
  rw [feedbackLookup, reverse_find?_eq_filter_getLast?]

/-- C5: for a well-formed response (every entry carrying header, score,
comment and suggestions), `update_from_ai_response` succeeds and rewrites
each section whose header equals the header of some response entry with the
score/comment/suggestions of the **last** such entry, while a section whose
header appears in no entry keeps its previous three fields unchanged. -/
theorem update_applies_response_by_header (d : DocumentStructure) (r : AIResponse)
    (hwf : ∀ e ∈ r.sections,
      e.header.isSome ∧ e.score.isSome ∧ e.comment.isSome ∧ e.suggestions.isSome) :
    update_from_ai_response d r =
      .ok
        { sections :=
            d.sections.map (fun s =>
              match (r.sections.filter (fun e => e.header == some s.header)).getLast? with
              | some f =>
                { s with
                    ai_score := f.score
                    ai_comment := f.comment
                    ai_suggestions := f.suggestions }
              | none => s),
          overall_score := r.overall_score,
          overall_comment := r.overall_comment } := by
  unfold update_from_ai_response
  rw [if_pos (by rw [List.all_eq_true]; exact fun e he => (hwf e he).1)]
  congr 1
  simp only [DocumentStructure.mk.injEq, and_true, true_and]
  refine List.map_congr_left fun s _ => ?_
  unfold updateSection
  rw [feedbackLookup_eq_filter_getLast?]

/-- Witness for C5: the second `Intro` entry (score 4) wins over the first
(score 2); the unmatched `Scope` section keeps its old fields. -/
theorem update_applies_response_by_header_witness :
    update_from_ai_response
        ⟨[⟨"Intro", [], some 1, some "a", some "b"⟩,
          ⟨"Scope", [], some 5, some "keep", some "kept"⟩], some 9, some "x"⟩
        ⟨some 8, some "ok",
          [⟨some "Intro", some 2, some "c1", some "s1"⟩,
           ⟨some "Intro", some 4, some "c2", some "s2"⟩]⟩ =
      .ok
        { sections :=
            [⟨"Intro", [], some 1, some "a", some "b"⟩,
             ⟨"Scope", [], some 5, some "keep", some "kept"⟩].map (fun s =>
              match
                ([⟨some "Intro", some 2, some "c1", some "s1"⟩,
                  ⟨some "Intro", some 4, some "c2", some "s2"⟩].filter
                    (fun (e : SectionFeedback) => e.header == some s.header)).getLast? with
              | some f =>
                { s with
                    ai_score := f.score
                    ai_comment := f.comment
                    ai_suggestions := f.suggestions }
              | none => s),
          overall_score := some 8,
          overall_comment := some "ok" } :=
  update_applies_response_by_header
    ⟨[⟨"Intro", [], some 1, some "a", some "b"⟩,
      ⟨"Scope", [], some 5, some "keep", some "kept"⟩], some 9, some "x"⟩
    ⟨some 8, some "ok",
      [⟨some "Intro", some 2, some "c1", some "s1"⟩,
       ⟨some "Intro", some 4, some "c2", some "s2"⟩]⟩ (by decide)

example :
    update_from_ai_response
        ⟨[⟨"Intro", [], some 1, some "a", some "b"⟩,
          ⟨"Scope", [], some 5, some "keep", some "kept"⟩], some 9, some "x"⟩
        ⟨some 8, some "ok",
          [⟨some "Intro", some 2, some "c1", some "s1"⟩,
           ⟨some "Intro", some 4, some "c2", some "s2"⟩]⟩ =
      .ok
        ⟨[⟨"Intro", [], some 4, some "c2", some "s2"⟩,
          ⟨"Scope", [], some 5, some "keep", some "kept"⟩], some 8, some "ok"⟩ := by decide

/-! ## C9: response matching is case-sensitive, segmentation is not -/

/-- C9: `update_from_ai_response` matches response entries to sections by
exact, case-sensitive string equality on the header: an entry whose header
differs from a section's header only in letter casing or surrounding
whitespace leaves that section's score, comment and suggestions unmodified —
even though the segmenter would accept the same text as a boundary for that
heading, since its comparison strips and lowercases both sides. -/
theorem response_matching_case_sensitive (sec : SectionContent)
    (f : SectionFeedback) (hdr : String) (hhead : f.header = some hdr)
    (hne : hdr ≠ sec.header)
    (hci : pyLower (pyStrip hdr) = pyLower (pyStrip sec.header)) :
    updateSection [f] sec = sec ∧
      isHeadingMatch (Block.para hdr) (pyStrip sec.header) = true := by
  constructor
  · have hfalse : (f.header == some sec.header) = false := by
      rw [hhead]
      simp [hne]
    simp [updateSection, feedbackLookup, List.find?, hfalse]
  · simp [isHeadingMatch, hci]

/-- Witness for C9: the entry header `INTRO` differs from the section header
`Intro` only in casing; the section is untouched, yet `INTRO` is a valid
segmentation boundary for the heading `Intro`. -/
theorem response_matching_case_sensitive_witness :
    updateSection [⟨some "INTRO", some 5, some "x", some "y"⟩]
        ⟨"Intro", [], some 1, some "c", some "s"⟩ =
      ⟨"Intro", [], some 1, some "c", some "s"⟩ ∧
      isHeadingMatch (Block.para "INTRO") (pyStrip "Intro") = true :=
  response_matching_case_sensitive ⟨"Intro", [], some 1, some "c", some "s"⟩
    ⟨some "INTRO", some 5, some "x", some "y"⟩ "INTRO" rfl (by decide) (by decide)

/-! ## C10: the overall fields are overwritten unconditionally -/

/-- C10: `update_from_ai_response` always overwrites `overall_score` and
`overall_comment` from the response: applying a response that lacks both
keys to a structure whose overall score was previously set resets both
fields to `None`, while a section whose header appears in no response entry
keeps its per-section fields. -/
theorem update_resets_overall_fields (d : DocumentStructure) (r : AIResponse)
    (d₂ : DocumentStructure) (s : SectionContent)
    (hos : r.overall_score = none) (hoc : r.overall_comment = none)
    (hset : d.overall_score.isSome)
    (hupd : update_from_ai_response d r = .ok d₂)
    (hs : ∀ e ∈ r.sections, e.header ≠ some s.header) :
    d₂.overall_score = none ∧ d₂.overall_comment = none ∧
      d₂.sections = d.sections.map (updateSection r.sections) ∧
      updateSection r.sections s = s := by
  have hpreserve : updateSection r.sections s = s := by
    have hnone : r.sections.reverse.find? (fun e => e.header == some s.header) = none := by
      rw [List.find?_eq_none]
      intro e he
      simp [hs e (List.mem_reverse.mp he)]
    simp [updateSection, feedbackLookup, hnone]
  unfold update_from_ai_response at hupd
  by_cases hall : r.sections.all (fun e => e.header.isSome) = true
  · rw [if_pos hall] at hupd
    injection hupd with h₂
    subst h₂
    exact ⟨hos, hoc, rfl, hpreserve⟩
  · rw [if_neg hall] at hupd
    exact absurd hupd (by simp)

/-- Witness for C10: a previously scored structure, a response without
overall fields and with one non-matching entry. -/
theorem update_resets_overall_fields_witness :
    (⟨[⟨"Intro", [], some 1, some "c", some "s"⟩], none, none⟩ :
          DocumentStructure).overall_score = none ∧
      (⟨[⟨"Intro", [], some 1, some "c", some "s"⟩], none, none⟩ :
          DocumentStructure).overall_comment = none ∧
      (⟨[⟨"Intro", [], some 1, some "c", some "s"⟩], none, none⟩ :
            DocumentStructure).sections =
        [⟨"Intro", [], some 1, some "c", some "s"⟩].map
          (updateSection [⟨some "Other", some 2, some "x", some "y"⟩]) ∧
      updateSection [⟨some "Other", some 2, some "x", some "y"⟩]
          ⟨"Intro", [], some 1, some "c", some "s"⟩ =
        ⟨"Intro", [], some 1, some "c", some "s"⟩ :=
  update_resets_overall_fields
    ⟨[⟨"Intro", [], some 1, some "c", some "s"⟩], some 7, some "prev"⟩
    ⟨none, none, [⟨some "Other", some 2, some "x", some "y"⟩]⟩
    ⟨[⟨"Intro", [], some 1, some "c", some "s"⟩], none, none⟩
    ⟨"Intro", [], some 1, some "c", some "s"⟩
    rfl rfl rfl (by decide) (by decide)

/-! ## C6: version extraction -/

/-- Counterexample to C6 as stated: the claim's pattern `version[:=-]?`
accepts `'='` as separator, but the code's pattern `version\s*:?-?\s*` does
not — a line using `'='` after `version` yields no match, so the version
field stays empty instead of `"2.3.1"`. -/
theorem extract_version_no_equals_separator :
    extract_document_info_version (.ofString "Version= 2.3.1") = "" ∧
      extract_document_info_version (.ofString "Version= 2.3.1") ≠ "2.3.1" := by decide

theorem foldl_version_eq_filterMap_getLast (lines : List String) (acc : String) :
    lines.foldl
        (fun acc line =>
          match reSearchVersion line.toList with
          | some g => String.mk g
          | none => acc) acc =
      match (lines.filterMap (fun l => reSearchVersion l.toList)).getLast? with
      | some g => String.mk g
      | none => acc := by
  induction lines generalizing acc with
  | nil => simp
  | cons l ls ih =>
    simp only [List.foldl_cons, List.filterMap_cons]
    cases hl : reSearchVersion l.toList with
    | none => exact ih acc
    | some g =>
      rw [ih (String.mk g)]
      cases hrest : ls.filterMap (fun l => reSearchVersion l.toList) with
      | nil => simp
      | cons a as =>
        cases hy : (a :: as).getLast? with
        | none => exact absurd hy (by simp)
        | some y => simp [List.getLast?_cons_cons, hy]

/-- C6 amended: the extracted version field equals the first capture group of
the **last** line matched by the case-insensitive pattern
`version\s*:?-?\s*(\d+\.\d+(\.\d+)?)` (later matches overwrite earlier ones),
and `""` when no line matches; the separator is an optional colon followed by
an optional hyphen — `'='` is not accepted. A line `Version: 2.3.1` yields
`"2.3.1"`. -/
theorem extract_version_last_match :
    (∀ text : DocInput,
        extract_document_info_version text =
          match ((infoLines text).filterMap (fun l => reSearchVersion l.toList)).getLast? with
          | some g => String.mk g
          | none => "") ∧
      extract_document_info_version (.ofString "Version: 2.3.1") = "2.3.1" :=
  ⟨fun text => by
      unfold extract_document_info_version
      exact foldl_version_eq_filterMap_getLast _ _,
    by decide⟩

/-! ## C7: transport failure yields the error sentinel -/

/-- C7: when the LLM transport raises (any exception out of the invoke
step), `review_document` does not propagate it: the response part of its
return value is the sentinel structure with a null overall score, the
overall comment carrying the error text, and an empty sections list. -/
theorem review_transport_error_sentinel (prompt e : String) (hp : prompt ≠ "") :
    review_document_response prompt (.error e) =
      .obj [("overall_score", .null),
            ("overall_comment", .str ("Error during review: " ++ e)),
            ("sections", .arr [])] := by
  unfold review_document_response
  rw [if_neg hp]
  rfl

/-- Witness for C7 at a concrete prompt and transport error. -/
theorem review_transport_error_sentinel_witness :
    review_document_response "p" (.error "boom") =
      .obj [("overall_score", .null),
            ("overall_comment", .str ("Error during review: " ++ "boom")),
            ("sections", .arr [])] :=
  review_transport_error_sentinel "p" "boom" (by decide)

/-! ## C8: JSON recovery from a non-JSON response body -/

/-- Brace-balanced span: consume until the depth opened so far closes
(`d` is the number of currently open braces, at least 1). -/
def takeBalanced : List Char → Nat → Option (List Char)
  | [], _ => none
  | c :: t, d =>
    if c = '}' then
      if d = 1 then some [c] else (takeBalanced t (d - 1)).map (fun r => c :: r)
    else if c = '{' then (takeBalanced t (d + 1)).map (fun r => c :: r)
    else (takeBalanced t d).map (fun r => c :: r)

/-- Modelled from the spec's words, not from the code: "extracting the first
`{...}` balanced-looking span from the text" — scan to the first `'{'` and
take up to the brace-balanced closing `'}'`. Stated only to compare the
claim with the code's greedy regex (`reSearchBrace`). -/
def firstBalancedSpan : List Char → Option (List Char)
  | [] => none
  | c :: t =>
    if c = '{' then (takeBalanced t 1).map (fun r => c :: r) else firstBalancedSpan t

/-- The recovery span described directly: drop everything before the first
`'{'`, then take through the last `'}'` that follows it. Equivalent to the
code's `re.search(r'\{.*\}', ..., re.DOTALL)`
(`reSearchBrace_eq_specGreedySpan`). -/
def specGreedySpan (cs : List Char) : Option (List Char) :=
  match cs.dropWhile (fun c => c != '{') with
  | [] => none
  | _ :: t => (takeToLastClose t).map (fun r => '{' :: r)

theorem takeToLastClose_eq_none_of (cs : List Char) (h : ∀ c ∈ cs, c ≠ '}') :
    takeToLastClose cs = none := by
  induction cs with
  | nil => rfl
  | cons c t ih =>
    unfold takeToLastClose
    rw [ih (fun x hx => h x (List.mem_cons_of_mem _ hx))]
    simp [h c (List.mem_cons_self _ _)]

theorem no_close_of_takeToLastClose_eq_none (cs : List Char)
    (h : takeToLastClose cs = none) : ∀ c ∈ cs, c ≠ '}' := by
  induction cs with
  | nil => simp
  | cons c t ih =>
    have ht : takeToLastClose t = none := by
      cases htl : takeToLastClose t with
      | none => rfl
      | some r =>
        exfalso
        unfold takeToLastClose at h
        rw [htl] at h
        exact absurd h (by simp)
    have hc : c ≠ '}' := by
      intro hcc
      unfold takeToLastClose at h
      rw [ht] at h
      simp [hcc] at h
    intro x hx
    rcases List.mem_cons.mp hx with rfl | hx
    · exact hc
    · exact ih ht x hx

theorem specGreedySpan_eq_none_of_no_close (cs : List Char)
    (h : ∀ c ∈ cs, c ≠ '}') : specGreedySpan cs = none := by
  unfold specGreedySpan
  cases hd : cs.dropWhile (fun c => c != '{') with
  | nil => rfl
  | cons a t =>
    have hsub : ∀ x ∈ a :: t, x ≠ '}' := by
      intro x hx
      refine h x ?_
      have hsl := List.dropWhile_sublist (l := cs) (p := fun c => c != '{')
      rw [hd] at hsl
      exact hsl.subset hx
    show Option.map (fun r => '{' :: r) (takeToLastClose t) = none
    rw [takeToLastClose_eq_none_of t (fun x hx => hsub x (List.mem_cons_of_mem _ hx))]
    rfl

/-- The position-scanning regex search and the direct first-`{`-to-last-`}`
description agree. -/
theorem reSearchBrace_eq_specGreedySpan (cs : List Char) :
    reSearchBrace cs = specGreedySpan cs := by
  induction cs with
  | nil => rfl
  | cons c t ih =>
    by_cases hc : c = '{'
    · subst hc
      have hrhs : specGreedySpan ('{' :: t) =
          (takeToLastClose t).map (fun r => '{' :: r) := by
        unfold specGreedySpan
        rw [List.dropWhile_cons]
        simp
      cases hl : takeToLastClose t with
      | some r =>
        rw [hrhs, hl]
        simp [reSearchBrace, braceMatchAt, hl]
      | none =>
        have hno : ∀ x ∈ t, x ≠ '}' := no_close_of_takeToLastClose_eq_none t hl
        have ht : specGreedySpan t = none := specGreedySpan_eq_none_of_no_close t hno
        rw [hrhs, hl]
        simp [reSearchBrace, braceMatchAt, hl, ih, ht]
    · have hb : braceMatchAt (c :: t) = none := by
        unfold braceMatchAt
        split
        · rename_i rest heq
          injection heq with h₁ h₂
          exact absurd h₁ hc
        · rfl
      have hstep : specGreedySpan (c :: t) = specGreedySpan t := by
        unfold specGreedySpan
        rw [List.dropWhile_cons, if_pos (by simp [hc])]
      rw [hstep, ← ih]
      simp [reSearchBrace, hb]

/-- C8 amended: when the raw body is not directly parseable as JSON, the
recovery extracts the span from the first `'{'` through the **last** `'}'`
(the greedy `\{.*\}` match with dot matching newlines — not the first
balanced span) and parses that; if the span is missing the sentinel carries
the raw body, and if the span fails to parse, the resulting exception is
caught by the outer handler, which yields the error sentinel. The spec's
Scenario 5 body yields an overall score of 7 as claimed, because there the
greedy span coincides with the balanced one. -/
theorem review_recovery_greedy_span :
    (∀ prompt content, prompt ≠ "" → jsonParse content = none →
        review_document_response prompt (.ok content) =
          match specGreedySpan content.toList with
          | some span =>
            (match jsonParse (String.mk span) with
             | some v => v
             | none => sentinelResult ("Error during review: " ++ jsonLoadsErrorText))
          | none => sentinelResult content) ∧
      (review_document_response "p"
            (.ok "Here is the result: \x7b\"overall_score\":7,\"sections\":[]\x7d")).getField
        "overall_score" = some (.num 7) := by
  constructor
  · intro prompt content hp hj
    unfold review_document_response
    rw [if_neg hp, ← reSearchBrace_eq_specGreedySpan]
    simp only [hj]
  · rfl

/-- Witness for the amended C8 on a body with no JSON and no brace span. -/
theorem review_recovery_greedy_span_witness :
    review_document_response "p" (.ok "no json here") =
      match specGreedySpan "no json here".toList with
      | some span =>
        (match jsonParse (String.mk span) with
         | some v => v
         | none => sentinelResult ("Error during review: " ++ jsonLoadsErrorText))
      | none => sentinelResult "no json here" :=
  review_recovery_greedy_span.1 "p" "no json here" (by decide) rfl

/-- Counterexample to C8 as stated: for the body `x {"a":1} y {"b":2}` the
first balanced span is `{"a":1}`, which parses to an object — the claim
would make recovery yield that object. The code instead feeds the greedy
span `{"a":1} y {"b":2}` to `json.loads`, which raises, so the call falls
back to the error sentinel, not the parsed first balanced span. -/
theorem review_recovery_not_first_balanced :
    firstBalancedSpan "x \x7b\"a\":1\x7d y \x7b\"b\":2\x7d".toList = some "\x7b\"a\":1\x7d".toList ∧
      jsonParse "\x7b\"a\":1\x7d" = some (.obj [("a", .num 1)]) ∧
      review_document_response "p" (.ok "x \x7b\"a\":1\x7d y \x7b\"b\":2\x7d") =
        sentinelResult ("Error during review: " ++ jsonLoadsErrorText) ∧
      review_document_response "p" (.ok "x \x7b\"a\":1\x7d y \x7b\"b\":2\x7d") ≠
        .obj [("a", .num 1)] := by
  refine ⟨rfl, rfl, rfl, ?_⟩
  intro h
  have h₂ : (3 : Nat) = 1 :=
    congrArg (fun v => match v with | JVal.obj fs => fs.length | _ => 0) h
  exact absurd h₂ (by decide)

end TechSpec
